import Mathlib

/-!
# simplebank: the transfer transaction of `db/sqlc/store.go`

A shallow embedding of `execTx`, `TransferTx` and `addMoney` together with the
ledger they run against.

* Go's `int64` values are integers; the only arithmetic the Go code performs
  itself is the negation `-arg.Amount`, embedded as `neg64` (two's complement).
* Go's `error` is `Option Error` (`none` is `nil`).
* The database connection is explicit state: the committed ledger, the log of
  calls issued so far with their outcomes, and the schedule of failures the
  environment will inject into the calls to come (cancellation, lock conflicts,
  lost connections, ...).
* The variable `result` captured by the closure of `TransferTx` is passed
  through `execTx` explicitly.
* The `context.Context` argument is not represented: a cancelled context shows
  up as an injected failure of the call in flight.
* Balances stored in the ledger are integers and the ledger never wraps them: a
  balance update that leaves the range of the column is a failed statement in
  the database, which the injected failures cover.
* Creation timestamps of rows are not represented.
-/

namespace SimpleBank

/-! ## Machine integers -/

/-- Smallest `int64`. -/
def minInt64 : Int := -9223372036854775808

/-- Largest `int64`. -/
def maxInt64 : Int := 9223372036854775807

/-- Reduction of an integer to the `int64` value with the same low 64 bits. -/
def wrap64 (x : Int) : Int := (x + 9223372036854775808) % 18446744073709551616 - 9223372036854775808

/-- Go's unary minus on `int64` (`-arg.Amount`). -/
def neg64 (a : Int) : Int := wrap64 (-a)

/-! ## Errors -/

/-- A Go `error` value, identified by its message. -/
structure Error where
  msg : String
deriving DecidableEq

/-- The call `fmt.Errorf("tx err: %v, rollback err: %v", err, rollbackError)` of `execTx`;
the verb `%v` prints the message of an error. -/
def Errorf (err rollbackError : Error) : Error :=
  { msg := "tx err: " ++ err.msg ++ ", rollback err: " ++ rollbackError.msg }

/-! ## Rows and parameters -/

/-- Modelled from the spec: the `Account` row type (generated `models.go` is missing);
identity, owner name, signed balance, currency code. -/
structure Account where
  ID : Int
  Owner : String
  Balance : Int
  Currency : String
deriving DecidableEq

/-- Modelled from the spec: the `Entry` row type (generated `models.go` is missing);
identity, owning account id, signed amount. -/
structure Entry where
  ID : Int
  AccountID : Int
  Amount : Int
deriving DecidableEq

/-- Modelled from the spec: the `Transfer` row type (generated `models.go` is missing);
identity, source account id, destination account id, amount. -/
structure Transfer where
  ID : Int
  FromAccountID : Int
  ToAccountID : Int
  Amount : Int
deriving DecidableEq

/-- Go zero value of `Account`. -/
instance : Inhabited Account := ⟨{ ID := 0, Owner := "", Balance := 0, Currency := "" }⟩

/-- Go zero value of `Entry`. -/
instance : Inhabited Entry := ⟨{ ID := 0, AccountID := 0, Amount := 0 }⟩

/-- Go zero value of `Transfer`. -/
instance : Inhabited Transfer := ⟨{ ID := 0, FromAccountID := 0, ToAccountID := 0, Amount := 0 }⟩

/-- Modelled from the spec: the argument of `CreateTransfer(fromID, toID, amount)`
(generated `transfer.sql.go` is missing). -/
structure CreateTransferParams where
  FromAccountID : Int
  ToAccountID : Int
  Amount : Int
deriving DecidableEq

/-- Modelled from the spec: the argument of `CreateEntry(accountID, signedAmount)`
(generated `entry.sql.go` is missing). -/
structure CreateEntryParams where
  AccountID : Int
  Amount : Int
deriving DecidableEq

/-- Modelled from the spec: the argument of `UpdateAccountBalance(accountID, delta)`
(generated `account.sql.go` is missing). -/
structure UpdateAccountBalanceParams where
  ID : Int
  Amount : Int
deriving DecidableEq

/-- The input parameters of the transfer transaction (`TransferTxParams`). -/
structure TransferTxParams where
  FromAccountID : Int
  ToAccountID : Int
  Amount : Int
deriving DecidableEq

/-- The result of the transfer transaction (`TransferTxResult`). -/
structure TransferTxResult where
  Transfer : Transfer
  FromAccount : Account
  ToAccount : Account
  FromEntry : Entry
  ToEntry : Entry
deriving DecidableEq

/-- Go zero value of `TransferTxResult` (`var result TransferTxResult`). -/
instance : Inhabited TransferTxResult :=
  ⟨{ Transfer := default, FromAccount := default, ToAccount := default,
     FromEntry := default, ToEntry := default }⟩

/-! ## The ledger -/

/-- The rows of the three tables `accounts`, `entries`, `transfers`. -/
structure Ledger where
  accounts : List Account
  entries : List Entry
  transfers : List Transfer
deriving DecidableEq

/-- The row of the account with the given id (`id` is the primary key). -/
def getAccount (id : Int) : List Account → Option Account
  | [] => none
  | a :: rest => if a.ID = id then some a else getAccount id rest

/-- The accounts table after `balance = balance + delta` on the row with the given id. -/
def addBalance (id delta : Int) : List Account → List Account
  | [] => []
  | a :: rest =>
    if a.ID = id then { a with Balance := a.Balance + delta } :: rest
    else a :: addBalance id delta rest

/-- Error of a statement that references an account that does not exist. -/
def ErrForeignKey : Error := { msg := "pq: insert or update violates foreign key constraint" }

/-- The error `sql.ErrNoRows`. -/
def ErrNoRows : Error := { msg := "sql: no rows in result set" }

/-- Modelled from the spec: the effect of `CreateTransfer(fromID, toID, amount) -> Transfer | error`
on the rows (generated `transfer.sql.go` is missing): one new transfer row with a fresh id;
it fails when one of the accounts is missing. -/
def Ledger.createTransfer (l : Ledger) (arg : CreateTransferParams) :
    Except Error (Transfer × Ledger) :=
  match getAccount arg.FromAccountID l.accounts, getAccount arg.ToAccountID l.accounts with
  | some _, some _ =>
    let t : Transfer :=
      { ID := (l.transfers.length : Int) + 1, FromAccountID := arg.FromAccountID,
        ToAccountID := arg.ToAccountID, Amount := arg.Amount }
    .ok (t, { l with transfers := l.transfers ++ [t] })
  | _, _ => .error ErrForeignKey

/-- Modelled from the spec: the effect of `CreateEntry(accountID, signedAmount) -> Entry | error`
on the rows (generated `entry.sql.go` is missing): one new entry row with a fresh id;
it fails when the account is missing. -/
def Ledger.createEntry (l : Ledger) (arg : CreateEntryParams) :
    Except Error (Entry × Ledger) :=
  match getAccount arg.AccountID l.accounts with
  | some _ =>
    let e : Entry :=
      { ID := (l.entries.length : Int) + 1, AccountID := arg.AccountID, Amount := arg.Amount }
    .ok (e, { l with entries := l.entries ++ [e] })
  | none => .error ErrForeignKey

/-- Modelled from the spec: the effect of `UpdateAccountBalance(accountID, delta) -> Account | error`
on the rows (generated `account.sql.go` is missing): applies delta to the current balance and
returns the resulting row; it fails when the account is missing. -/
def Ledger.updateAccountBalance (l : Ledger) (arg : UpdateAccountBalanceParams) :
    Except Error (Account × Ledger) :=
  match getAccount arg.ID l.accounts with
  | some a =>
    .ok ({ a with Balance := a.Balance + arg.Amount },
         { l with accounts := addBalance arg.ID arg.Amount l.accounts })
  | none => .error ErrNoRows

/-! ## The connection, transactions and the log of calls -/

/-- A call that reaches the database. -/
inductive Call where
  | BeginTx
  | CreateTransfer (arg : CreateTransferParams)
  | CreateEntry (arg : CreateEntryParams)
  | UpdateAccountBalance (arg : UpdateAccountBalanceParams)
  | Commit
  | Rollback
deriving DecidableEq

/-- A call together with the error it returned (`none`: it succeeded). -/
structure Event where
  call : Call
  err : Option Error
deriving DecidableEq

/-- Whether the call is one of the three ledger operations. -/
def Call.isLedgerOp : Call → Bool
  | .CreateTransfer _ => true
  | .CreateEntry _ => true
  | .UpdateAccountBalance _ => true
  | _ => false

/-- The failure the environment injects into the next call, if any. -/
def nextFault : List (Option Error) → Option Error
  | [] => none
  | f :: _ => f

/-- The connection `*sql.DB`: the committed ledger, the log of the calls issued so far,
and the failures the environment injects into the calls to come. -/
structure DB where
  ledger : Ledger
  trace : List Event
  faults : List (Option Error)
deriving DecidableEq

/-- An open transaction `*sql.Tx`: the committed ledger it started from, its own uncommitted
view of the rows, the log and the failures to come. -/
structure Tx where
  committed : Ledger
  work : Ledger
  trace : List Event
  faults : List (Option Error)
deriving DecidableEq

/-- The call `db.BeginTx(ctx, nil)`: an open transaction, or an error and the connection. -/
def DB.BeginTx (db : DB) : Except (Error × DB) Tx :=
  match nextFault db.faults with
  | some e =>
    .error (e, { db with trace := db.trace ++ [{ call := .BeginTx, err := some e }],
                         faults := db.faults.tail })
  | none =>
    .ok { committed := db.ledger, work := db.ledger,
          trace := db.trace ++ [{ call := .BeginTx, err := none }],
          faults := db.faults.tail }

/-- The call `tx.Commit()`: the rows of the transaction become the committed ledger when it
succeeds; nothing becomes visible when it fails. -/
def Tx.Commit (tx : Tx) : Option Error × DB :=
  match nextFault tx.faults with
  | some e =>
    (some e, { ledger := tx.committed,
               trace := tx.trace ++ [{ call := .Commit, err := some e }],
               faults := tx.faults.tail })
  | none =>
    (none, { ledger := tx.work,
             trace := tx.trace ++ [{ call := .Commit, err := none }],
             faults := tx.faults.tail })

/-- The call `tx.Rollback()`: the rows of the transaction are discarded. -/
def Tx.Rollback (tx : Tx) : Option Error × DB :=
  (nextFault tx.faults,
   { ledger := tx.committed,
     trace := tx.trace ++ [{ call := .Rollback, err := nextFault tx.faults }],
     faults := tx.faults.tail })

/-- The transaction after a call has been issued and has returned: the call and its outcome
are appended to the log and the failure scheduled for it is consumed. -/
def Tx.log (tx : Tx) (c : Call) (err : Option Error) : Tx :=
  { tx with trace := tx.trace ++ [{ call := c, err := err }], faults := tx.faults.tail }

/-- One statement run inside the transaction: it fails with the injected failure if there is
one, otherwise with the error of the statement itself, otherwise it changes the rows of the
transaction. A failed statement returns the zero value of its row type. -/
def Tx.query {α : Type} [Inhabited α] (tx : Tx) (c : Call)
    (run : Ledger → Except Error (α × Ledger)) : (α × Option Error) × Tx :=
  match nextFault tx.faults with
  | some e => ((default, some e), tx.log c (some e))
  | none =>
    match run tx.work with
    | .error e => ((default, some e), tx.log c (some e))
    | .ok (a, l) => ((a, none), { tx.log c none with work := l })

/-- Modelled from the spec: the handle `Queries` to the ledger operations, bound to a
transaction (generated `db.go` is missing). -/
structure Queries where
  db : Tx
deriving DecidableEq

/-- Modelled from the spec: the constructor `New(tx)` of the handle (generated `db.go` is missing). -/
def New (tx : Tx) : Queries := { db := tx }

/-- Modelled from the spec: `CreateTransfer` issued on the handle (generated `transfer.sql.go`
is missing). -/
def Queries.CreateTransfer (q : Queries) (arg : CreateTransferParams) :
    (Transfer × Option Error) × Queries :=
  let r := q.db.query (.CreateTransfer arg) (fun l => l.createTransfer arg)
  (r.1, { db := r.2 })

/-- Modelled from the spec: `CreateEntry` issued on the handle (generated `entry.sql.go`
is missing). -/
def Queries.CreateEntry (q : Queries) (arg : CreateEntryParams) :
    (Entry × Option Error) × Queries :=
  let r := q.db.query (.CreateEntry arg) (fun l => l.createEntry arg)
  (r.1, { db := r.2 })

/-- Modelled from the spec: `UpdateAccountBalance` issued on the handle (generated
`account.sql.go` is missing). -/
def Queries.UpdateAccountBalance (q : Queries) (arg : UpdateAccountBalanceParams) :
    (Account × Option Error) × Queries :=
  let r := q.db.query (.UpdateAccountBalance arg) (fun l => l.updateAccountBalance arg)
  (r.1, { db := r.2 })

/-! ## `store.go` -/

/-- The type `Store`: the connection it runs its transactions on. -/
structure Store where
  db : DB
deriving DecidableEq

/-- The method `execTx`: begin a transaction, run the callback on a handle bound to it, roll
back when the callback returns an error and commit otherwise. `captured` is the state of the
variables the callback closes over. -/
def Store.execTx {ρ : Type} (store : Store)
    (fn : Queries → ρ → (Option Error × ρ) × Queries) (captured : ρ) :
    (Option Error × ρ) × Store :=
  match store.db.BeginTx with
  | .error (err, db) => ((some err, captured), { db := db })
  | .ok tx =>
    let queries := New tx
    let ((err, captured), queries) := fn queries captured
    match err with
    | some err =>
      match queries.db.Rollback with
      | (some rollbackError, db) => ((some (Errorf err rollbackError), captured), { db := db })
      | (none, db) => ((some err, captured), { db := db })
    | none =>
      let (commitErr, db) := queries.db.Commit
      ((commitErr, captured), { db := db })

/-- The function `addMoney`: two balance updates, the second only if the first succeeded. -/
def addMoney (q : Queries) (accountID1 amount1 accountID2 amount2 : Int) :
    (Account × Account × Option Error) × Queries :=
  let ((account1, err), q) := q.UpdateAccountBalance { ID := accountID1, Amount := amount1 }
  match err with
  | some err => ((account1, default, some err), q)
  | none =>
    let ((account2, err), q) := q.UpdateAccountBalance { ID := accountID2, Amount := amount2 }
    ((account1, account2, err), q)

/-- The closure that `TransferTx` passes to `execTx`; `result` is the captured variable. -/
def TransferTx.callback (arg : TransferTxParams) (queries : Queries) (result : TransferTxResult) :
    (Option Error × TransferTxResult) × Queries :=
  let ((transfer, err), queries) := queries.CreateTransfer
    { FromAccountID := arg.FromAccountID, ToAccountID := arg.ToAccountID, Amount := arg.Amount }
  let result := { result with Transfer := transfer }
  match err with
  | some err => ((some err, result), queries)
  | none =>
  let ((fromEntry, err), queries) := queries.CreateEntry
    { AccountID := arg.FromAccountID, Amount := neg64 arg.Amount }
  let result := { result with FromEntry := fromEntry }
  match err with
  | some err => ((some err, result), queries)
  | none =>
  let ((toEntry, err), queries) := queries.CreateEntry
    { AccountID := arg.ToAccountID, Amount := arg.Amount }
  let result := { result with ToEntry := toEntry }
  match err with
  | some err => ((some err, result), queries)
  | none =>
  let ((toEntry, err), queries) := queries.CreateEntry
    { AccountID := arg.ToAccountID, Amount := arg.Amount }
  let result := { result with ToEntry := toEntry }
  match err with
  | some err => ((some err, result), queries)
  | none =>
  if arg.FromAccountID < arg.ToAccountID then
    let ((fromAccount, toAccount, err), queries) :=
      addMoney queries arg.FromAccountID (neg64 arg.Amount) arg.ToAccountID arg.Amount
    ((err, { result with FromAccount := fromAccount, ToAccount := toAccount }), queries)
  else
    let ((toAccount, fromAccount, err), queries) :=
      addMoney queries arg.ToAccountID arg.Amount arg.FromAccountID (neg64 arg.Amount)
    ((err, { result with ToAccount := toAccount, FromAccount := fromAccount }), queries)

/-- The method `TransferTx`. -/
def Store.TransferTx (store : Store) (arg : TransferTxParams) :
    (TransferTxResult × Option Error) × Store :=
  let result : TransferTxResult := default
  let ((err, result), store) := store.execTx (TransferTx.callback arg) result
  ((result, err), store)

/-! ## Vocabulary of the properties -/

/-- The first balance update that `TransferTx` issues for `arg`. -/
def firstUpdate (arg : TransferTxParams) : UpdateAccountBalanceParams :=
  if arg.FromAccountID < arg.ToAccountID then
    { ID := arg.FromAccountID, Amount := neg64 arg.Amount }
  else { ID := arg.ToAccountID, Amount := arg.Amount }

/-- The second balance update that `TransferTx` issues for `arg`. -/
def secondUpdate (arg : TransferTxParams) : UpdateAccountBalanceParams :=
  if arg.FromAccountID < arg.ToAccountID then
    { ID := arg.ToAccountID, Amount := arg.Amount }
  else { ID := arg.FromAccountID, Amount := neg64 arg.Amount }

/-- The ledger operations of one run of the closure of `TransferTx`, in program order. -/
def ledgerCalls (arg : TransferTxParams) : List Call :=
  [ .CreateTransfer { FromAccountID := arg.FromAccountID, ToAccountID := arg.ToAccountID,
                      Amount := arg.Amount },
    .CreateEntry { AccountID := arg.FromAccountID, Amount := neg64 arg.Amount },
    .CreateEntry { AccountID := arg.ToAccountID, Amount := arg.Amount },
    .CreateEntry { AccountID := arg.ToAccountID, Amount := arg.Amount },
    .UpdateAccountBalance (firstUpdate arg),
    .UpdateAccountBalance (secondUpdate arg) ]

/-- The log entries of calls that all succeeded. -/
def okEvents (cs : List Call) : List Event := cs.map (fun c => { call := c, err := none })

/-- The calls issued by `store.TransferTx arg`, with their outcomes: what the call appended
to the log. -/
def issued (store : Store) (arg : TransferTxParams) : List Event :=
  (store.TransferTx arg).2.db.trace.drop store.db.trace.length

/-- Whether the call is `UpdateAccountBalance`. -/
def Call.isUpdate : Call → Bool
  | .UpdateAccountBalance _ => true
  | _ => false

/-- The `UpdateAccountBalance` calls of a log, in the order they were issued. -/
def balanceUpdates (evs : List Event) : List Event := evs.filter (fun ev => ev.call.isUpdate)

/-- Sum of the balances of all accounts. -/
def totalBalance (l : Ledger) : Int := (l.accounts.map (fun a => a.Balance)).sum

/-- A sequence of `TransferTx` calls executed one after another on the same store. -/
def runTransfers (store : Store) : List TransferTxParams → Store
  | [] => store
  | arg :: rest => runTransfers (store.TransferTx arg).2 rest

/-- Sum of the amounts of the entries that reference the account. -/
def entrySum (id : Int) (entries : List Entry) : Int :=
  ((entries.filter (fun e => e.AccountID = id)).map (fun e => e.Amount)).sum

/-- The balance of every account is its initial balance plus the sum of its entries. -/
def BalanceInvariant (initial : Int → Int) (l : Ledger) : Prop :=
  ∀ a ∈ l.accounts, a.Balance = initial a.ID + entrySum a.ID l.entries

instance (initial : Int → Int) (l : Ledger) : Decidable (BalanceInvariant initial l) := by
  unfold BalanceInvariant; infer_instance

/-- The rows that a run of the closure of `TransferTx` without failure leaves in the
transaction when started on the rows `l`, and the result it assembles. -/
def Posted (l : Ledger) (arg : TransferTxParams) (result : TransferTxResult) (w : Ledger) : Prop :=
  ∃ t w1 e1 w2 e2 w3 e3 w4 a1 w5 a2,
    l.createTransfer ⟨arg.FromAccountID, arg.ToAccountID, arg.Amount⟩ = .ok (t, w1) ∧
    w1.createEntry ⟨arg.FromAccountID, neg64 arg.Amount⟩ = .ok (e1, w2) ∧
    w2.createEntry ⟨arg.ToAccountID, arg.Amount⟩ = .ok (e2, w3) ∧
    w3.createEntry ⟨arg.ToAccountID, arg.Amount⟩ = .ok (e3, w4) ∧
    w4.updateAccountBalance (firstUpdate arg) = .ok (a1, w5) ∧
    w5.updateAccountBalance (secondUpdate arg) = .ok (a2, w) ∧
    result =
      { Transfer := t, FromEntry := e1, ToEntry := e3,
        FromAccount := if arg.FromAccountID < arg.ToAccountID then a1 else a2,
        ToAccount := if arg.FromAccountID < arg.ToAccountID then a2 else a1 }

/-- The value of the captured variable `result` after ledger operation number `k` of the
closure failed on a run started on the rows `l` with `result` at its zero value: every field
holds what the last operation that wrote it returned, the row if that operation succeeded and
the zero value if it failed, and the zero value if no operation wrote it. -/
def PartialResult (l : Ledger) (arg : TransferTxParams) (k : Nat)
    (result : TransferTxResult) : Prop :=
  result.Transfer =
    (if 1 ≤ k then
      ⟨(l.transfers.length : Int) + 1, arg.FromAccountID, arg.ToAccountID, arg.Amount⟩
     else default) ∧
  result.FromEntry =
    (if 2 ≤ k then ⟨(l.entries.length : Int) + 1, arg.FromAccountID, neg64 arg.Amount⟩
     else default) ∧
  result.ToEntry =
    (if 4 ≤ k then ⟨(l.entries.length : Int) + 3, arg.ToAccountID, arg.Amount⟩ else default) ∧
  (k ≤ 4 → result.FromAccount = default ∧ result.ToAccount = default) ∧
  (k = 5 → ∃ x, getAccount (firstUpdate arg).ID l.accounts = some x ∧
    result.FromAccount =
      (if arg.FromAccountID < arg.ToAccountID then
        { x with Balance := x.Balance + neg64 arg.Amount }
       else default) ∧
    result.ToAccount =
      (if arg.FromAccountID < arg.ToAccountID then default
       else { x with Balance := x.Balance + arg.Amount }))

/-- A run of the closure, started with `result` at its zero value, that stopped at a failed
ledger operation: the operations before number `k` succeeded, operation `k` failed with `e`,
nothing followed. -/
def AbortedRun (arg : TransferTxParams) (q : Queries)
    (out : (Option Error × TransferTxResult) × Queries) (k : Nat) (c : Call) (e : Error) : Prop :=
  (ledgerCalls arg)[k]? = some c ∧ out.1.1 = some e ∧
    out.2.db.committed = q.db.committed ∧
    out.2.db.trace = q.db.trace ++ (okEvents ((ledgerCalls arg).take k)
      ++ [{ call := c, err := some e }]) ∧
    PartialResult q.db.work arg k out.1.2

/-- A run of the closure in which every ledger operation succeeded. -/
def CompletedRun (arg : TransferTxParams) (q : Queries)
    (out : (Option Error × TransferTxResult) × Queries) : Prop :=
  out.1.1 = none ∧ Posted q.db.work arg out.1.2 out.2.db.work ∧
    out.2.db.committed = q.db.committed ∧
    out.2.db.trace = q.db.trace ++ okEvents (ledgerCalls arg)

/-- The handle `q1` is the handle `q` after the call `c` returned `err` and left the rows of
the transaction at `w`. -/
def Logged (q q1 : Queries) (c : Call) (err : Option Error) (w : Ledger) : Prop :=
  q1.db.committed = q.db.committed ∧ q1.db.work = w ∧
    q1.db.trace = q.db.trace ++ [{ call := c, err := err }]

/-! ## The outcomes of `TransferTx` -/

/-- The error `execTx` reports after the closure failed with `e` and the rollback returned `r`. -/
def rolledBackError (e : Error) : Option Error → Error
  | none => e
  | some rollbackError => Errorf e rollbackError

/-- Outcome 1: `BeginTx` failed with `e`. -/
def BeginFailed (store : Store) (arg : TransferTxParams) (e : Error) : Prop :=
  (store.TransferTx arg).1 = (default, some e) ∧
    (store.TransferTx arg).2.db.ledger = store.db.ledger ∧
    issued store arg = [{ call := .BeginTx, err := some e }]

/-- Outcome 2: ledger operation number `k`, the call `c`, failed with `e`, and the rollback
returned `r`. -/
def RolledBack (store : Store) (arg : TransferTxParams) (k : Nat) (c : Call) (e : Error)
    (r : Option Error) : Prop :=
  (ledgerCalls arg)[k]? = some c ∧
    (store.TransferTx arg).1.2 = some (rolledBackError e r) ∧
    (store.TransferTx arg).2.db.ledger = store.db.ledger ∧
    issued store arg = { call := .BeginTx, err := none } ::
      (okEvents ((ledgerCalls arg).take k) ++
        [{ call := c, err := some e }, { call := .Rollback, err := r }]) ∧
    PartialResult store.db.ledger arg k (store.TransferTx arg).1.1

/-- Outcome 3: every ledger operation succeeded, leaving the rows `w` in the transaction, and
the commit returned `ce`. -/
def CommitAttempted (store : Store) (arg : TransferTxParams) (w : Ledger)
    (ce : Option Error) : Prop :=
  Posted store.db.ledger arg (store.TransferTx arg).1.1 w ∧
    (store.TransferTx arg).1.2 = ce ∧
    (store.TransferTx arg).2.db.ledger = (if ce = none then w else store.db.ledger) ∧
    issued store arg = { call := .BeginTx, err := none } ::
      (okEvents (ledgerCalls arg) ++ [{ call := .Commit, err := ce }])

/-! ## Example data -/

/-- Account A of the scenario of the specification: id 1, balance 100. -/
def accountA : Account := { ID := 1, Owner := "alice", Balance := 100, Currency := "USD" }

/-- Account B of the scenario of the specification: id 2, balance 50. -/
def accountB : Account := { ID := 2, Owner := "bob", Balance := 50, Currency := "USD" }

/-- A ledger with the accounts A and B and no entry or transfer yet. -/
def exampleLedger : Ledger := { accounts := [accountA, accountB], entries := [], transfers := [] }

/-- A store on the example ledger in which the environment injects the given failures. -/
def storeWithFaults (faults : List (Option Error)) : Store :=
  { db := { ledger := exampleLedger, trace := [], faults := faults } }

/-- A store on the example ledger in which no call fails for an outside reason. -/
def exampleStore : Store := storeWithFaults []

/-- The initial balances of the example ledger. -/
def exampleInitial (id : Int) : Int := if id = 1 then 100 else if id = 2 then 50 else 0

/-- The transaction that `BeginTx` opens on `storeWithFaults (none :: faults)`. -/
def exampleTx (faults : List (Option Error)) : Tx :=
  { committed := exampleLedger, work := exampleLedger,
    trace := [{ call := .BeginTx, err := none }], faults := faults }

theorem getAccount_addBalance_same {id : Int} {l : List Account} {a : Account} (d : Int)
    (h : getAccount id l = some a) :
    getAccount id (addBalance id d l) = some { a with Balance := a.Balance + d } := by
  induction l with
  | nil => simp [getAccount] at h
  | cons b rest ih =>
    unfold getAccount at h
    unfold addBalance
    split at h
    · rename_i hb
      cases h
      simp [getAccount, hb]
    · rename_i hb
      simp [getAccount, hb, ih h]

theorem getAccount_addBalance_ne {id id2 : Int} (l : List Account) (d : Int) (hne : id ≠ id2) :
    getAccount id (addBalance id2 d l) = getAccount id l := by
  induction l with
  | nil => rfl
  | cons b rest ih =>
    unfold addBalance
    by_cases hb : b.ID = id2
    · have hb2 : ¬ id2 = id := fun h => hne h.symm
      simp [hb, getAccount, hb2]
    · simp only [hb, if_false]
      unfold getAccount
      rw [ih]

theorem sum_addBalance {id : Int} {l : List Account} {a : Account} (d : Int)
    (h : getAccount id l = some a) :
    ((addBalance id d l).map (fun a => a.Balance)).sum = (l.map (fun a => a.Balance)).sum + d := by
  induction l with
  | nil => simp [getAccount] at h
  | cons b rest ih =>
    unfold getAccount at h
    unfold addBalance
    split at h
    · rename_i hb
      simp only [hb, if_true, List.map_cons, List.sum_cons]
      omega
    · rename_i hb
      simp only [hb, if_false, List.map_cons, List.sum_cons, ih h]
      omega

theorem map_ID_addBalance (id d : Int) (l : List Account) :
    (addBalance id d l).map (fun a => a.ID) = l.map (fun a => a.ID) := by
  induction l with
  | nil => rfl
  | cons b rest ih =>
    unfold addBalance
    split
    · simp
    · simp [ih]

theorem createTransfer_ok {l w : Ledger} {p : CreateTransferParams} {t : Transfer}
    (h : l.createTransfer p = .ok (t, w)) :
    t = ⟨(l.transfers.length : Int) + 1, p.FromAccountID, p.ToAccountID, p.Amount⟩ ∧
    w = { l with transfers := l.transfers ++ [t] } := by
  unfold Ledger.createTransfer at h
  split at h
  · simp only [Except.ok.injEq, Prod.mk.injEq] at h
    obtain ⟨h1, h2⟩ := h
    subst h1
    exact ⟨rfl, h2.symm⟩
  · cases h

theorem createEntry_ok {l w : Ledger} {p : CreateEntryParams} {e : Entry}
    (h : l.createEntry p = .ok (e, w)) :
    e = ⟨(l.entries.length : Int) + 1, p.AccountID, p.Amount⟩ ∧
    w = { l with entries := l.entries ++ [e] } := by
  unfold Ledger.createEntry at h
  split at h
  · simp only [Except.ok.injEq, Prod.mk.injEq] at h
    obtain ⟨h1, h2⟩ := h
    subst h1
    exact ⟨rfl, h2.symm⟩
  · cases h

theorem updateAccountBalance_ok {l w : Ledger} {p : UpdateAccountBalanceParams} {a1 : Account}
    (h : l.updateAccountBalance p = .ok (a1, w)) :
    ∃ a, getAccount p.ID l.accounts = some a ∧
      a1 = { a with Balance := a.Balance + p.Amount } ∧
      w = { l with accounts := addBalance p.ID p.Amount l.accounts } := by
  unfold Ledger.updateAccountBalance at h
  split at h
  · rename_i a ha
    simp only [Except.ok.injEq, Prod.mk.injEq] at h
    exact ⟨a, ha, h.1.symm, h.2.symm⟩
  · cases h

/-- The rows and the result of a run without failure, written out. -/
theorem Posted.explicit {l w : Ledger} {arg : TransferTxParams} {result : TransferTxResult}
    (h : Posted l arg result w) :
    ∃ x y, getAccount (firstUpdate arg).ID l.accounts = some x ∧
      getAccount (secondUpdate arg).ID
        (addBalance (firstUpdate arg).ID (firstUpdate arg).Amount l.accounts) = some y ∧
      w = { accounts := addBalance (secondUpdate arg).ID (secondUpdate arg).Amount
              (addBalance (firstUpdate arg).ID (firstUpdate arg).Amount l.accounts),
            entries := l.entries ++
              [⟨(l.entries.length : Int) + 1, arg.FromAccountID, neg64 arg.Amount⟩,
               ⟨(l.entries.length : Int) + 2, arg.ToAccountID, arg.Amount⟩,
               ⟨(l.entries.length : Int) + 3, arg.ToAccountID, arg.Amount⟩],
            transfers := l.transfers ++
              [⟨(l.transfers.length : Int) + 1, arg.FromAccountID, arg.ToAccountID, arg.Amount⟩] } ∧
      result =
        { Transfer :=
            ⟨(l.transfers.length : Int) + 1, arg.FromAccountID, arg.ToAccountID, arg.Amount⟩,
          FromEntry := ⟨(l.entries.length : Int) + 1, arg.FromAccountID, neg64 arg.Amount⟩,
          ToEntry := ⟨(l.entries.length : Int) + 3, arg.ToAccountID, arg.Amount⟩,
          FromAccount :=
            if arg.FromAccountID < arg.ToAccountID then
              { x with Balance := x.Balance + (firstUpdate arg).Amount }
            else { y with Balance := y.Balance + (secondUpdate arg).Amount },
          ToAccount :=
            if arg.FromAccountID < arg.ToAccountID then
              { y with Balance := y.Balance + (secondUpdate arg).Amount }
            else { x with Balance := x.Balance + (firstUpdate arg).Amount } } := by
  obtain ⟨t, w1, e1, w2, e2, w3, e3, w4, a1, w5, a2, ht, he1, he2, he3, ha1, ha2, hres⟩ := h
  obtain ⟨ht1, hw1⟩ := createTransfer_ok ht
  obtain ⟨he11, hw2⟩ := createEntry_ok he1
  obtain ⟨he21, hw3⟩ := createEntry_ok he2
  obtain ⟨he31, hw4⟩ := createEntry_ok he3
  obtain ⟨x, hx, hax, hw5⟩ := updateAccountBalance_ok ha1
  obtain ⟨y, hy, hay, hw6⟩ := updateAccountBalance_ok ha2
  subst hw1; subst hw2; subst hw3; subst hw4; subst hw5
  refine ⟨x, y, hx, hy, ?_, ?_⟩
  · rw [hw6, he31, he21, he11, ht1]
    simp
    constructor <;> ring
  · rw [hres, hax, hay, he31, he11, ht1]
    simp
    ring

/-! ## The statement primitive -/

/-- A statement either fails, leaving the rows alone, or runs on the rows of the transaction. -/
theorem Tx.query_cases {α : Type} [Inhabited α] (tx : Tx) (c : Call)
    (run : Ledger → Except Error (α × Ledger)) :
    (∃ e, tx.query c run = ((default, some e), tx.log c (some e))) ∨
    (∃ a l, run tx.work = .ok (a, l) ∧
      tx.query c run = ((a, none), { tx.log c none with work := l })) := by
  unfold Tx.query
  cases hf : nextFault tx.faults with
  | some e => exact Or.inl ⟨e, rfl⟩
  | none =>
    cases hr : run tx.work with
    | error e => exact Or.inl ⟨e, rfl⟩
    | ok p => exact Or.inr ⟨p.1, p.2, rfl, rfl⟩

theorem Queries.CreateTransfer_cases (q : Queries) (arg : CreateTransferParams) :
    (∃ e q1, q.CreateTransfer arg = ((default, some e), q1) ∧
      Logged q q1 (.CreateTransfer arg) (some e) q.db.work) ∨
    (∃ t l q1, q.db.work.createTransfer arg = .ok (t, l) ∧
      q.CreateTransfer arg = ((t, none), q1) ∧ Logged q q1 (.CreateTransfer arg) none l) := by
  unfold Queries.CreateTransfer
  rcases q.db.query_cases (.CreateTransfer arg) (fun l => l.createTransfer arg) with
    ⟨e, h⟩ | ⟨t, l, h1, h⟩
  · exact Or.inl ⟨e, ⟨q.db.log _ (some e)⟩, by rw [h], rfl, rfl, rfl⟩
  · exact Or.inr ⟨t, l, ⟨{ q.db.log _ none with work := l }⟩, h1, by rw [h], rfl, rfl, rfl⟩

theorem Queries.CreateEntry_cases (q : Queries) (arg : CreateEntryParams) :
    (∃ e q1, q.CreateEntry arg = ((default, some e), q1) ∧
      Logged q q1 (.CreateEntry arg) (some e) q.db.work) ∨
    (∃ t l q1, q.db.work.createEntry arg = .ok (t, l) ∧
      q.CreateEntry arg = ((t, none), q1) ∧ Logged q q1 (.CreateEntry arg) none l) := by
  unfold Queries.CreateEntry
  rcases q.db.query_cases (.CreateEntry arg) (fun l => l.createEntry arg) with
    ⟨e, h⟩ | ⟨t, l, h1, h⟩
  · exact Or.inl ⟨e, ⟨q.db.log _ (some e)⟩, by rw [h], rfl, rfl, rfl⟩
  · exact Or.inr ⟨t, l, ⟨{ q.db.log _ none with work := l }⟩, h1, by rw [h], rfl, rfl, rfl⟩

theorem Queries.UpdateAccountBalance_cases (q : Queries) (arg : UpdateAccountBalanceParams) :
    (∃ e q1, q.UpdateAccountBalance arg = ((default, some e), q1) ∧
      Logged q q1 (.UpdateAccountBalance arg) (some e) q.db.work) ∨
    (∃ t l q1, q.db.work.updateAccountBalance arg = .ok (t, l) ∧
      q.UpdateAccountBalance arg = ((t, none), q1) ∧
      Logged q q1 (.UpdateAccountBalance arg) none l) := by
  unfold Queries.UpdateAccountBalance
  rcases q.db.query_cases (.UpdateAccountBalance arg) (fun l => l.updateAccountBalance arg) with
    ⟨e, h⟩ | ⟨t, l, h1, h⟩
  · exact Or.inl ⟨e, ⟨q.db.log _ (some e)⟩, by rw [h], rfl, rfl, rfl⟩
  · exact Or.inr ⟨t, l, ⟨{ q.db.log _ none with work := l }⟩, h1, by rw [h], rfl, rfl, rfl⟩

/-- The two ways `addMoney` can fail and the way it succeeds. -/
theorem addMoney_cases (q : Queries) (id1 d1 id2 d2 : Int) :
    (∃ e q1, addMoney q id1 d1 id2 d2 = ((default, default, some e), q1) ∧
      Logged q q1 (.UpdateAccountBalance ⟨id1, d1⟩) (some e) q.db.work) ∨
    (∃ a1 l1 e q1 q2, q.db.work.updateAccountBalance ⟨id1, d1⟩ = .ok (a1, l1) ∧
      addMoney q id1 d1 id2 d2 = ((a1, default, some e), q2) ∧
      Logged q q1 (.UpdateAccountBalance ⟨id1, d1⟩) none l1 ∧
      Logged q1 q2 (.UpdateAccountBalance ⟨id2, d2⟩) (some e) l1) ∨
    (∃ a1 l1 a2 l2 q1 q2, q.db.work.updateAccountBalance ⟨id1, d1⟩ = .ok (a1, l1) ∧
      l1.updateAccountBalance ⟨id2, d2⟩ = .ok (a2, l2) ∧
      addMoney q id1 d1 id2 d2 = ((a1, a2, none), q2) ∧
      Logged q q1 (.UpdateAccountBalance ⟨id1, d1⟩) none l1 ∧
      Logged q1 q2 (.UpdateAccountBalance ⟨id2, d2⟩) none l2) := by
  unfold addMoney
  rcases q.UpdateAccountBalance_cases ⟨id1, d1⟩ with ⟨e, q1, h, hl⟩ | ⟨a1, l1, q1, h1, h, hl⟩
  · exact Or.inl ⟨e, q1, by rw [h], hl⟩
  · rw [h]
    rcases q1.UpdateAccountBalance_cases ⟨id2, d2⟩ with
      ⟨e, q2, h2, hl2⟩ | ⟨a2, l2, q2, h2, h3, hl2⟩
    · refine Or.inr (Or.inl ⟨a1, l1, e, q1, q2, h1, by simp only [h2], hl, ?_⟩)
      rw [hl.2.1] at hl2; exact hl2
    · rw [hl.2.1] at h2
      exact Or.inr (Or.inr ⟨a1, l1, a2, l2, q1, q2, h1, h2, by simp only [h3], hl, hl2⟩)

/-- The fields of the zero value of `TransferTxResult` are zero values. -/
theorem default_result_fields :
    (default : TransferTxResult).Transfer = default ∧
    (default : TransferTxResult).FromAccount = default ∧
    (default : TransferTxResult).ToAccount = default ∧
    (default : TransferTxResult).FromEntry = default ∧
    (default : TransferTxResult).ToEntry = default :=
  ⟨rfl, rfl, rfl, rfl, rfl⟩

/-- The rows returned by the four create operations of the closure when they all succeed on
the rows `l`, and the accounts they leave untouched. -/
theorem creates_ok {l w1 w2 w3 w4 : Ledger} {arg : TransferTxParams} {t : Transfer}
    {e1 e2 e3 : Entry}
    (ht : l.createTransfer ⟨arg.FromAccountID, arg.ToAccountID, arg.Amount⟩ = .ok (t, w1))
    (he1 : w1.createEntry ⟨arg.FromAccountID, neg64 arg.Amount⟩ = .ok (e1, w2))
    (he2 : w2.createEntry ⟨arg.ToAccountID, arg.Amount⟩ = .ok (e2, w3))
    (he3 : w3.createEntry ⟨arg.ToAccountID, arg.Amount⟩ = .ok (e3, w4)) :
    e3 = ⟨(l.entries.length : Int) + 3, arg.ToAccountID, arg.Amount⟩ ∧
    w4.accounts = l.accounts := by
  obtain ⟨-, hw1⟩ := createTransfer_ok ht
  obtain ⟨-, hw2⟩ := createEntry_ok he1
  obtain ⟨-, hw3⟩ := createEntry_ok he2
  obtain ⟨h3, hw4⟩ := createEntry_ok he3
  subst hw1; subst hw2; subst hw3; subst hw4
  refine ⟨?_, rfl⟩
  rw [h3]
  simp
  ring

/-- Every run of the closure that starts with `result` at its zero value is an aborted run
or a completed run. -/
theorem callback_cases (arg : TransferTxParams) (q : Queries) :
    (∃ k c e, AbortedRun arg q (TransferTx.callback arg q default) k c e) ∨
    CompletedRun arg q (TransferTx.callback arg q default) := by
  obtain ⟨d1, d2, d3, d4, d5⟩ := default_result_fields
  unfold TransferTx.callback
  rcases q.CreateTransfer_cases ⟨arg.FromAccountID, arg.ToAccountID, arg.Amount⟩ with
    ⟨e, q1, h, hc1, hw1, ht1⟩ | ⟨t, w1, q1, ht, h, hc1, hw1, ht1⟩
  · left
    refine ⟨0, .CreateTransfer ⟨arg.FromAccountID, arg.ToAccountID, arg.Amount⟩, e, rfl, ?_⟩
    simp [h, okEvents, hc1, ht1, PartialResult, d2, d3, d4, d5]
  rw [h]; dsimp only
  have htv := (createTransfer_ok ht).1
  rcases q1.CreateEntry_cases ⟨arg.FromAccountID, neg64 arg.Amount⟩ with
    ⟨e, q2, h, hc2, hw2, ht2⟩ | ⟨e1, w2, q2, he1, h, hc2, hw2, ht2⟩
  · left
    refine ⟨1, .CreateEntry ⟨arg.FromAccountID, neg64 arg.Amount⟩, e, rfl, ?_⟩
    simp [h, okEvents, ledgerCalls, hc1, hc2, ht1, ht2, PartialResult, d2, d3, d4, d5, htv]
  rw [h]; dsimp only
  rw [hw1] at he1
  have he1v : e1 = ⟨(q.db.work.entries.length : Int) + 1, arg.FromAccountID,
      neg64 arg.Amount⟩ := by
    rw [(createEntry_ok he1).1, (createTransfer_ok ht).2]
  rcases q2.CreateEntry_cases ⟨arg.ToAccountID, arg.Amount⟩ with
    ⟨e, q3, h, hc3, hw3, ht3⟩ | ⟨e2, w3, q3, he2, h, hc3, hw3, ht3⟩
  · left
    refine ⟨2, .CreateEntry ⟨arg.ToAccountID, arg.Amount⟩, e, rfl, ?_⟩
    simp [h, okEvents, ledgerCalls, hc1, hc2, hc3, ht1, ht2, ht3, PartialResult, d2, d3, d4,
      d5, htv, he1v]
  rw [h]; dsimp only
  rw [hw2] at he2
  rcases q3.CreateEntry_cases ⟨arg.ToAccountID, arg.Amount⟩ with
    ⟨e, q4, h, hc4, hw4, ht4⟩ | ⟨e3, w4, q4, he3, h, hc4, hw4, ht4⟩
  · left
    refine ⟨3, .CreateEntry ⟨arg.ToAccountID, arg.Amount⟩, e, rfl, ?_⟩
    simp [h, okEvents, ledgerCalls, hc1, hc2, hc3, hc4, ht1, ht2, ht3, ht4, PartialResult,
      d2, d3, d4, d5, htv, he1v]
  rw [h]; dsimp only
  rw [hw3] at he3
  obtain ⟨he3v, hacc⟩ := creates_ok ht he1 he2 he3
  by_cases hlt : arg.FromAccountID < arg.ToAccountID
  · rw [if_pos hlt]
    rcases addMoney_cases q4 arg.FromAccountID (neg64 arg.Amount) arg.ToAccountID arg.Amount with
      ⟨e, q5, h, hc5, hw5, ht5⟩ | ⟨a1, w5, e, q5, q6, ha1, h, ⟨hc5, hw5, ht5⟩, hc6, hw6, ht6⟩ |
      ⟨a1, w5, a2, w6, q5, q6, ha1, ha2, h, ⟨hc5, hw5, ht5⟩, hc6, hw6, ht6⟩
    · left
      refine ⟨4, .UpdateAccountBalance (firstUpdate arg), e, rfl, ?_⟩
      simp [h, okEvents, ledgerCalls, hc1, hc2, hc3, hc4, hc5, ht1, ht2, ht3, ht4, ht5,
        firstUpdate, hlt, PartialResult, htv, he1v, he3v]
    · left
      rw [hw4] at ha1
      obtain ⟨x, hx, hxv, -⟩ := updateAccountBalance_ok ha1
      rw [hacc] at hx
      refine ⟨5, .UpdateAccountBalance (secondUpdate arg), e, rfl, ?_⟩
      simp [h, okEvents, ledgerCalls, hc1, hc2, hc3, hc4, hc5, hc6, ht1, ht2, ht3, ht4, ht5,
        ht6, firstUpdate, secondUpdate, hlt, PartialResult, htv, he1v, he3v]
      exact ⟨x, hx, hxv⟩
    · right
      rw [hw4] at ha1
      refine ⟨by simp [h], ⟨t, w1, e1, w2, e2, w3, e3, w4, a1, w5, a2, ht, he1, he2, he3,
        ?_, ?_, ?_⟩, ?_⟩
      · simpa [firstUpdate, hlt] using ha1
      · simpa [h, hw6, secondUpdate, hlt] using ha2
      · simp [h, hlt, d2, d3]
      · simp [h, okEvents, ledgerCalls, hc1, hc2, hc3, hc4, hc5, hc6, ht1, ht2, ht3, ht4, ht5,
          ht6, hw6, firstUpdate, secondUpdate, hlt]
  · rw [if_neg hlt]
    rcases addMoney_cases q4 arg.ToAccountID arg.Amount arg.FromAccountID (neg64 arg.Amount) with
      ⟨e, q5, h, hc5, hw5, ht5⟩ | ⟨a1, w5, e, q5, q6, ha1, h, ⟨hc5, hw5, ht5⟩, hc6, hw6, ht6⟩ |
      ⟨a1, w5, a2, w6, q5, q6, ha1, ha2, h, ⟨hc5, hw5, ht5⟩, hc6, hw6, ht6⟩
    · left
      refine ⟨4, .UpdateAccountBalance (firstUpdate arg), e, rfl, ?_⟩
      simp [h, okEvents, ledgerCalls, hc1, hc2, hc3, hc4, hc5, ht1, ht2, ht3, ht4, ht5,
        firstUpdate, hlt, PartialResult, htv, he1v, he3v]
    · left
      rw [hw4] at ha1
      obtain ⟨x, hx, hxv, -⟩ := updateAccountBalance_ok ha1
      rw [hacc] at hx
      refine ⟨5, .UpdateAccountBalance (secondUpdate arg), e, rfl, ?_⟩
      simp [h, okEvents, ledgerCalls, hc1, hc2, hc3, hc4, hc5, hc6, ht1, ht2, ht3, ht4, ht5,
        ht6, firstUpdate, secondUpdate, hlt, PartialResult, htv, he1v, he3v]
      exact ⟨x, hx, hxv⟩
    · right
      rw [hw4] at ha1
      refine ⟨by simp [h], ⟨t, w1, e1, w2, e2, w3, e3, w4, a1, w5, a2, ht, he1, he2, he3,
        ?_, ?_, ?_⟩, ?_⟩
      · simpa [firstUpdate, hlt] using ha1
      · simpa [h, hw6, secondUpdate, hlt] using ha2
      · simp [h, hlt, d2, d3]
      · simp [h, okEvents, ledgerCalls, hc1, hc2, hc3, hc4, hc5, hc6, ht1, ht2, ht3, ht4, ht5,
          ht6, hw6, firstUpdate, secondUpdate, hlt]

/-! ## The three outcomes of `TransferTx` -/

@[simp]
theorem New_db (tx : Tx) : (New tx).db = tx := rfl

theorem issued_eq (store : Store) (arg : TransferTxParams) (evs : List Event)
    (h : (store.TransferTx arg).2.db.trace = store.db.trace ++ evs) : issued store arg = evs := by
  unfold issued; rw [h]; exact List.drop_left _ _

/-- Every call of `TransferTx` has one of the three outcomes. -/
theorem TransferTx_cases (store : Store) (arg : TransferTxParams) :
    (∃ e, BeginFailed store arg e) ∨ (∃ k c e r, RolledBack store arg k c e r) ∨
    (∃ w ce, CommitAttempted store arg w ce) := by
  cases hb : store.db.BeginTx with
  | error p =>
    left
    obtain ⟨e, db⟩ := p
    have hdb : db.ledger = store.db.ledger ∧
        db.trace = store.db.trace ++ [{ call := .BeginTx, err := some e }] := by
      unfold DB.BeginTx at hb
      split at hb
      · simp only [Except.error.injEq, Prod.mk.injEq] at hb
        obtain ⟨h1, h2⟩ := hb
        subst h1; subst h2
        exact ⟨rfl, rfl⟩
      · cases hb
    have hout : store.TransferTx arg = ((default, some e), { db := db }) := by
      simp [Store.TransferTx, Store.execTx, hb]
    refine ⟨e, by rw [hout], by rw [hout]; exact hdb.1, ?_⟩
    apply issued_eq
    rw [hout]; exact hdb.2
  | ok tx =>
    right
    have htx : tx.committed = store.db.ledger ∧ tx.work = store.db.ledger ∧
        tx.trace = store.db.trace ++ [{ call := .BeginTx, err := none }] := by
      unfold DB.BeginTx at hb
      split at hb
      · cases hb
      · simp only [Except.ok.injEq] at hb
        subst hb
        exact ⟨rfl, rfl, rfl⟩
    obtain ⟨hcm, hwk, htr⟩ := htx
    rcases callback_cases arg (New tx) with ⟨k, c, e, hk, he, hc, ht, hpr⟩ |
      ⟨he, hp, hc, ht⟩
    · left
      have hout : store.TransferTx arg =
          (((TransferTx.callback arg (New tx) default).1.2,
            some (rolledBackError e (nextFault (TransferTx.callback arg (New tx) default).2.db.faults))),
           { db := (TransferTx.callback arg (New tx) default).2.db.Rollback.2 }) := by
        simp only [Store.TransferTx, Store.execTx, hb]
        generalize TransferTx.callback arg (New tx) default = out at *
        obtain ⟨⟨err, res⟩, q1⟩ := out
        simp only at he
        subst he
        simp only [Tx.Rollback]
        cases hnf : nextFault q1.db.faults <;> simp [rolledBackError]
      refine ⟨k, c, e, nextFault (TransferTx.callback arg (New tx) default).2.db.faults,
        hk, by rw [hout], ?_, ?_, ?_⟩
      · rw [hout]; simp [Tx.Rollback, hc, hcm]
      · apply issued_eq
        rw [hout]; simp [Tx.Rollback, ht, htr]
      · rw [hout]; simpa [hwk] using hpr
    · right
      have hout : store.TransferTx arg =
          (((TransferTx.callback arg (New tx) default).1.2,
            nextFault (TransferTx.callback arg (New tx) default).2.db.faults),
           { db := (TransferTx.callback arg (New tx) default).2.db.Commit.2 }) := by
        simp only [Store.TransferTx, Store.execTx, hb]
        generalize TransferTx.callback arg (New tx) default = out at *
        obtain ⟨⟨err, res⟩, q1⟩ := out
        simp only at he
        subst he
        simp only [Tx.Commit]
        cases hnf : nextFault q1.db.faults <;> simp
      refine ⟨(TransferTx.callback arg (New tx) default).2.db.work,
        nextFault (TransferTx.callback arg (New tx) default).2.db.faults, ?_, by rw [hout], ?_, ?_⟩
      · rw [hout]; simpa [hwk] using hp
      · rw [hout]
        cases hnf : nextFault (TransferTx.callback arg (New tx) default).2.db.faults <;>
          simp [Tx.Commit, hnf, hc, hcm]
      · apply issued_eq
        rw [hout]
        cases hnf : nextFault (TransferTx.callback arg (New tx) default).2.db.faults <;>
          simp [Tx.Commit, hnf, ht, htr]

/-! ## Claims -/

theorem neg64_eq_neg {a : Int} (hmin : minInt64 < a) (hmax : a ≤ maxInt64) : neg64 a = -a := by
  unfold neg64 wrap64
  unfold minInt64 at hmin
  unfold maxInt64 at hmax
  omega

/-- C1: a successful transfer between two distinct existing accounts with a positive amount
returns as `FromAccount` the row of the source with its balance lowered by the amount and as
`ToAccount` the row of the destination with its balance raised by the amount, in either order
of the ids and without any condition on the source balance; these are the rows of the two
accounts in the committed ledger. -/
theorem C1_transfer_moves_amount (store : Store) (arg : TransferTxParams) (a b : Account)
    (hne : arg.FromAccountID ≠ arg.ToAccountID)
    (hfrom : getAccount arg.FromAccountID store.db.ledger.accounts = some a)
    (hto : getAccount arg.ToAccountID store.db.ledger.accounts = some b)
    (hpos : 0 < arg.Amount) (hmax : arg.Amount ≤ maxInt64)
    (hok : (store.TransferTx arg).1.2 = none) :
    (store.TransferTx arg).1.1.FromAccount = { a with Balance := a.Balance - arg.Amount } ∧
    (store.TransferTx arg).1.1.ToAccount = { b with Balance := b.Balance + arg.Amount } ∧
    getAccount arg.FromAccountID (store.TransferTx arg).2.db.ledger.accounts =
      some (store.TransferTx arg).1.1.FromAccount ∧
    getAccount arg.ToAccountID (store.TransferTx arg).2.db.ledger.accounts =
      some (store.TransferTx arg).1.1.ToAccount := by
  have hneg : neg64 arg.Amount = -arg.Amount :=
    neg64_eq_neg (by unfold minInt64; omega) hmax
  rcases TransferTx_cases store arg with ⟨e, h, -⟩ | ⟨k, c, e, r, -, h, -⟩ |
    ⟨w, ce, hp, hce, hl, -⟩
  · rw [h] at hok; cases hok
  · rw [h] at hok; cases hok
  · rw [hok] at hce; subst hce
    simp only [if_true] at hl
    obtain ⟨x, y, hx, hy, hw, hres⟩ := hp.explicit
    rw [hl, hres, hw]
    by_cases hlt : arg.FromAccountID < arg.ToAccountID
    · simp only [firstUpdate, secondUpdate, hlt, if_true] at hx hy ⊢
      rw [hfrom] at hx; cases hx
      rw [getAccount_addBalance_ne _ _ (Ne.symm hne), hto] at hy; cases hy
      refine ⟨by rw [hneg]; rfl, rfl, ?_, ?_⟩
      · rw [getAccount_addBalance_ne _ _ hne, getAccount_addBalance_same _ hfrom]
      · rw [getAccount_addBalance_same]
        rw [getAccount_addBalance_ne _ _ (Ne.symm hne), hto]
    · simp only [firstUpdate, secondUpdate, hlt, if_false] at hx hy ⊢
      rw [hto] at hx; cases hx
      rw [getAccount_addBalance_ne _ _ hne, hfrom] at hy; cases hy
      refine ⟨by rw [hneg]; rfl, rfl, ?_, ?_⟩
      · rw [getAccount_addBalance_same]
        rw [getAccount_addBalance_ne _ _ hne, hfrom]
      · rw [getAccount_addBalance_ne _ _ (Ne.symm hne), getAccount_addBalance_same _ hto]

/-- C1 at the scenario of the specification: transferring 200 from B (balance 50) to A
succeeds and leaves B at -150. -/
theorem C1_transfer_moves_amount_witness :
    (exampleStore.TransferTx ⟨2, 1, 200⟩).1.2 = none ∧
    (exampleStore.TransferTx ⟨2, 1, 200⟩).1.1.FromAccount = { accountB with Balance := 50 - 200 } ∧
    (exampleStore.TransferTx ⟨2, 1, 200⟩).1.1.ToAccount = { accountA with Balance := 100 + 200 } ∧
    getAccount 2 (exampleStore.TransferTx ⟨2, 1, 200⟩).2.db.ledger.accounts =
      some (exampleStore.TransferTx ⟨2, 1, 200⟩).1.1.FromAccount ∧
    getAccount 1 (exampleStore.TransferTx ⟨2, 1, 200⟩).2.db.ledger.accounts =
      some (exampleStore.TransferTx ⟨2, 1, 200⟩).1.1.ToAccount :=
  ⟨by decide,
   C1_transfer_moves_amount exampleStore ⟨2, 1, 200⟩ accountB accountA (by decide) (by decide)
     (by decide) (by decide) (by decide) (by decide)⟩

theorem okEvents_err {cs : List Call} {ev : Event} (h : ev ∈ okEvents cs) : ev.err = none := by
  unfold okEvents at h
  rw [List.mem_map] at h
  obtain ⟨c, -, hc⟩ := h
  rw [← hc]

/-- In a log that ends with one failed call followed by the rollback, a failed ledger
operation can only be the call before the rollback. -/
theorem failed_op_position (pre : List Event) (f last ev : Event) (i : Nat)
    (hpre : ∀ x ∈ pre, x.err = none) (hlast : last.call.isLedgerOp = false)
    (h : (pre ++ [f, last])[i]? = some ev) (herr : ev.err ≠ none)
    (hop : ev.call.isLedgerOp = true) : i = pre.length := by
  rcases Nat.lt_trichotomy i pre.length with hlt | heq | hgt
  · rw [List.getElem?_append_left hlt] at h
    exact absurd (hpre ev (List.getElem?_mem h)) herr
  · exact heq
  · rw [List.getElem?_append_right (Nat.le_of_lt hgt)] at h
    obtain ⟨m, hm⟩ : ∃ m, i - pre.length = m + 1 := ⟨i - pre.length - 1, by omega⟩
    rw [hm] at h
    cases m with
    | zero =>
      simp at h
      rw [← h] at hop
      rw [hlast] at hop
      cases hop
    | succ m => simp at h

/-- In such a log only the rollback comes after the failed call. -/
theorem after_failed_op (pre : List Event) (f last ev : Event) (j : Nat)
    (hj : pre.length < j) (h : (pre ++ [f, last])[j]? = some ev) : ev = last := by
  rw [List.getElem?_append_right (Nat.le_of_lt hj)] at h
  obtain ⟨m, hm⟩ : ∃ m, j - pre.length = m + 1 := ⟨j - pre.length - 1, by omega⟩
  rw [hm] at h
  cases m with
  | zero => simp at h; exact h.symm
  | succ m => simp at h

/-- C2: whichever ledger operation of a transfer fails (an entry of the log of the call that
is a ledger operation and carries an error), no ledger operation is issued after it,
`TransferTx` returns an error, the last call issued is the rollback, and when the rollback
succeeded the committed ledger is the one before the call. -/
theorem C2_failed_step_aborts_and_rolls_back (store : Store) (arg : TransferTxParams)
    (i : Nat) (c : Call) (e : Error)
    (hfail : (issued store arg)[i]? = some { call := c, err := some e })
    (hop : c.isLedgerOp = true) :
    (∀ j ev, i < j → (issued store arg)[j]? = some ev → ev.call.isLedgerOp = false) ∧
    (store.TransferTx arg).1.2 ≠ none ∧
    (∃ r, (issued store arg).getLast? = some { call := .Rollback, err := r }) ∧
    ({ call := .Rollback, err := none } ∈ issued store arg →
      (store.TransferTx arg).2.db.ledger = store.db.ledger) := by
  rcases TransferTx_cases store arg with ⟨e0, -, -, h⟩ | ⟨k, c1, e1, r, -, herr, hl, h, -⟩ |
    ⟨w, ce, -, -, -, h⟩
  · rw [h] at hfail
    cases i with
    | zero => simp at hfail; rw [← hfail.1] at hop; cases hop
    | succ i => simp at hfail
  · have hshape : issued store arg =
        ({ call := .BeginTx, err := none } :: okEvents ((ledgerCalls arg).take k)) ++
          [{ call := c1, err := some e1 }, { call := .Rollback, err := r }] := by
      rw [h]; rfl
    have hpre : ∀ x ∈ ({ call := .BeginTx, err := none } ::
        okEvents ((ledgerCalls arg).take k) : List Event), x.err = none := by
      intro x hx
      rcases List.mem_cons.mp hx with hx | hx
      · rw [hx]
      · exact okEvents_err hx
    rw [hshape] at hfail
    have hi := failed_op_position _ { call := c1, err := some e1 }
      { call := .Rollback, err := r } _ i hpre rfl hfail (by simp) hop
    refine ⟨?_, by rw [herr]; simp, ⟨r, ?_⟩, fun _ => hl⟩
    · intro j ev hj hev
      rw [hshape] at hev
      rw [hi] at hj
      rw [after_failed_op _ _ _ _ j hj hev]
      rfl
    · rw [hshape, List.append_cons]
      exact List.getLast?_concat _
  · have hmem := List.getElem?_mem hfail
    rw [h] at hmem
    rcases List.mem_cons.mp hmem with hx | hx
    · cases hx
    · rcases List.mem_append.mp hx with hx | hx
      · have := okEvents_err hx
        simp at this
      · simp at hx
        rw [hx.1] at hop
        cases hop

/-- C2 at a concrete run: the second ledger operation (the debit entry) fails on the example
store; the rollback succeeds. -/
theorem C2_failed_step_aborts_and_rolls_back_witness :
    (issued (storeWithFaults [none, none, some ⟨"boom"⟩]) ⟨1, 2, 30⟩)[2]? =
      some { call := .CreateEntry ⟨1, -30⟩, err := some ⟨"boom"⟩ } ∧
    (Call.CreateEntry ⟨1, -30⟩).isLedgerOp = true ∧
    (∀ j ev, 2 < j → (issued (storeWithFaults [none, none, some ⟨"boom"⟩]) ⟨1, 2, 30⟩)[j]? = some ev →
      ev.call.isLedgerOp = false) ∧
    ((storeWithFaults [none, none, some ⟨"boom"⟩]).TransferTx ⟨1, 2, 30⟩).1.2 ≠ none ∧
    (∃ r, (issued (storeWithFaults [none, none, some ⟨"boom"⟩]) ⟨1, 2, 30⟩).getLast? =
      some { call := .Rollback, err := r }) ∧
    ({ call := .Rollback, err := none } ∈ issued (storeWithFaults [none, none, some ⟨"boom"⟩]) ⟨1, 2, 30⟩ →
      ((storeWithFaults [none, none, some ⟨"boom"⟩]).TransferTx ⟨1, 2, 30⟩).2.db.ledger =
        (storeWithFaults [none, none, some ⟨"boom"⟩]).db.ledger) :=
  ⟨by decide, by decide,
   C2_failed_step_aborts_and_rolls_back (storeWithFaults [none, none, some ⟨"boom"⟩]) ⟨1, 2, 30⟩ 2
     (.CreateEntry ⟨1, -30⟩) ⟨"boom"⟩ (by decide) (by decide)⟩

/-- C3: when the unit of work returns an error `e` inside a transaction that began, `execTx`
issues exactly one more call, the rollback, and no commit; it returns `e` itself when the
rollback succeeds, and when the rollback fails with `r` it returns the error built from both,
whose message contains the message of `e` and the message of `r`. -/
theorem C3_execTx_rolls_back_on_error {ρ : Type} (store : Store)
    (fn : Queries → ρ → (Option Error × ρ) × Queries) (captured : ρ) (tx : Tx)
    (e : Error) (hbegin : store.db.BeginTx = .ok tx)
    (hfn : (fn (New tx) captured).1.1 = some e) :
    (store.execTx fn captured).2.db.trace = (fn (New tx) captured).2.db.trace ++
      [{ call := .Rollback, err := nextFault (fn (New tx) captured).2.db.faults }] ∧
    (nextFault (fn (New tx) captured).2.db.faults = none →
      (store.execTx fn captured).1.1 = some e) ∧
    (∀ r, nextFault (fn (New tx) captured).2.db.faults = some r →
      (store.execTx fn captured).1.1 = some (Errorf e r) ∧
      (Errorf e r).msg = "tx err: " ++ e.msg ++ ", rollback err: " ++ r.msg) := by
  simp only [Store.execTx, hbegin]
  generalize fn (New tx) captured = out at *
  obtain ⟨⟨err, res⟩, q1⟩ := out
  simp only at hfn
  subst hfn
  simp only [Tx.Rollback]
  cases hnf : nextFault q1.db.faults <;> simp [Errorf]

/-- C4: once the transaction began, `execTx` issues exactly one more call after the unit of
work, a commit or a rollback, and it is the commit exactly when the unit of work succeeded;
in that case `execTx` returns what the commit returned. -/
theorem C4_execTx_commits_on_success {ρ : Type} (store : Store)
    (fn : Queries → ρ → (Option Error × ρ) × Queries) (captured : ρ) (tx : Tx)
    (hbegin : store.db.BeginTx = .ok tx) :
    ∃ c, (store.execTx fn captured).2.db.trace = (fn (New tx) captured).2.db.trace ++
        [{ call := c, err := nextFault (fn (New tx) captured).2.db.faults }] ∧
      (c = .Commit ∨ c = .Rollback) ∧
      (c = .Commit ↔ (fn (New tx) captured).1.1 = none) ∧
      ((fn (New tx) captured).1.1 = none →
        (store.execTx fn captured).1.1 = nextFault (fn (New tx) captured).2.db.faults) := by
  simp only [Store.execTx, hbegin]
  generalize fn (New tx) captured = out at *
  obtain ⟨⟨err, res⟩, q1⟩ := out
  cases err with
  | some e =>
    refine ⟨.Rollback, ?_, Or.inr rfl, by simp, by simp⟩
    simp only [Tx.Rollback]
    cases hnf : nextFault q1.db.faults <;> simp
  | none =>
    refine ⟨.Commit, ?_, Or.inl rfl, by simp, ?_⟩
    · simp only [Tx.Commit]
      cases hnf : nextFault q1.db.faults <;> simp
    · intro _
      simp only [Tx.Commit]
      cases hnf : nextFault q1.db.faults <;> simp

/-- C3 at a concrete run: `CreateTransfer` fails with "boom" and the rollback fails with
"lost"; `execTx` returns the error that names both. -/
theorem C3_execTx_rolls_back_on_error_witness :
    (storeWithFaults [none, some ⟨"boom"⟩, some ⟨"lost"⟩]).db.BeginTx =
      .ok (exampleTx [some ⟨"boom"⟩, some ⟨"lost"⟩]) ∧
    (TransferTx.callback ⟨1, 2, 30⟩ (New (exampleTx [some ⟨"boom"⟩, some ⟨"lost"⟩])) default).1.1 =
      some ⟨"boom"⟩ ∧
    ((storeWithFaults [none, some ⟨"boom"⟩, some ⟨"lost"⟩]).execTx
      (TransferTx.callback ⟨1, 2, 30⟩) default).1.1 = some (Errorf ⟨"boom"⟩ ⟨"lost"⟩) ∧
    (Errorf ⟨"boom"⟩ ⟨"lost"⟩).msg = "tx err: " ++ "boom" ++ ", rollback err: " ++ "lost" :=
  ⟨rfl, rfl,
   (C3_execTx_rolls_back_on_error (storeWithFaults [none, some ⟨"boom"⟩, some ⟨"lost"⟩])
     (TransferTx.callback ⟨1, 2, 30⟩) default (exampleTx [some ⟨"boom"⟩, some ⟨"lost"⟩])
     ⟨"boom"⟩ rfl rfl).2.2 ⟨"lost"⟩ rfl⟩

/-- C4 at a concrete run: the transfer of 30 from A to B on the example store ends with one
commit. -/
theorem C4_execTx_commits_on_success_witness :
    exampleStore.db.BeginTx = .ok (exampleTx []) ∧
    ∃ c, (exampleStore.execTx (TransferTx.callback ⟨1, 2, 30⟩) default).2.db.trace =
        (TransferTx.callback ⟨1, 2, 30⟩ (New (exampleTx [])) default).2.db.trace ++
          [{ call := c,
             err := nextFault (TransferTx.callback ⟨1, 2, 30⟩ (New (exampleTx [])) default).2.db.faults }] ∧
      (c = .Commit ∨ c = .Rollback) ∧
      (c = .Commit ↔ (TransferTx.callback ⟨1, 2, 30⟩ (New (exampleTx [])) default).1.1 = none) ∧
      ((TransferTx.callback ⟨1, 2, 30⟩ (New (exampleTx [])) default).1.1 = none →
        (exampleStore.execTx (TransferTx.callback ⟨1, 2, 30⟩) default).1.1 =
          nextFault (TransferTx.callback ⟨1, 2, 30⟩ (New (exampleTx [])) default).2.db.faults) :=
  ⟨rfl, C4_execTx_commits_on_success exampleStore (TransferTx.callback ⟨1, 2, 30⟩) default
    (exampleTx []) rfl⟩

/-- C5: evaluation at the scenario of the specification. The transfer of 30 from A to B
succeeds and adds one transfer row but three entry rows, two of them for the destination
account; the amounts of the added entries sum to 30, not to zero. -/
theorem C5_transfer_adds_three_entries :
    (exampleStore.TransferTx ⟨1, 2, 30⟩).1.2 = none ∧
    (exampleStore.TransferTx ⟨1, 2, 30⟩).2.db.ledger.transfers = [⟨1, 1, 2, 30⟩] ∧
    (exampleStore.TransferTx ⟨1, 2, 30⟩).2.db.ledger.entries =
      [⟨1, 1, -30⟩, ⟨2, 2, 30⟩, ⟨3, 2, 30⟩] ∧
    ((exampleStore.TransferTx ⟨1, 2, 30⟩).2.db.ledger.entries.map (fun e => e.Amount)).sum = 30 := by
  decide

/-- C6: evaluation at the scenario of the specification. The invariant holds on the example
ledger, the transfer of 30 from A to B succeeds, and the invariant fails afterwards: B has
balance 80 while its initial balance plus its entries is 110. -/
theorem C6_invariant_broken_by_duplicate_entry :
    BalanceInvariant exampleInitial exampleStore.db.ledger ∧
    (exampleStore.TransferTx ⟨1, 2, 30⟩).1.2 = none ∧
    ¬ BalanceInvariant exampleInitial (exampleStore.TransferTx ⟨1, 2, 30⟩).2.db.ledger ∧
    getAccount 2 (exampleStore.TransferTx ⟨1, 2, 30⟩).2.db.ledger.accounts =
      some { accountB with Balance := 80 } ∧
    exampleInitial 2 + entrySum 2 (exampleStore.TransferTx ⟨1, 2, 30⟩).2.db.ledger.entries = 110 := by
  decide

/-- The result of a run that failed at the first ledger operation is the zero value. -/
theorem PartialResult.zero {l : Ledger} {arg : TransferTxParams} {result : TransferTxResult}
    (h : PartialResult l arg 0 result) : result = default := by
  obtain ⟨h1, h2, h3, h4, -⟩ := h
  obtain ⟨h4, h5⟩ := h4 (Nat.zero_le 4)
  obtain ⟨T, FA, TA, FE, TE⟩ := result
  simp only at h1 h2 h3 h4 h5
  subst h4; subst h5
  simp at h1 h2 h3
  subst h1; subst h2; subst h3
  rfl

/-- The balance updates of a call whose ledger operations all succeeded. -/
theorem balanceUpdates_of_commit {store : Store} {arg : TransferTxParams} {w : Ledger}
    {ce : Option Error} (h : CommitAttempted store arg w ce) :
    balanceUpdates (issued store arg) =
      [{ call := .UpdateAccountBalance (firstUpdate arg), err := none },
       { call := .UpdateAccountBalance (secondUpdate arg), err := none }] := by
  rw [h.2.2.2]; simp [balanceUpdates, okEvents, ledgerCalls, Call.isUpdate]

/-- One call of `TransferTx` keeps the set of accounts, keeps every account it does not
name, and, when the negation of the amount does not overflow, keeps the sum of the balances. -/
theorem TransferTx_step (store : Store) (arg : TransferTxParams) :
    (store.TransferTx arg).2.db.ledger.accounts.map (fun a => a.ID) =
      store.db.ledger.accounts.map (fun a => a.ID) ∧
    (∀ id, id ≠ arg.FromAccountID → id ≠ arg.ToAccountID →
      getAccount id (store.TransferTx arg).2.db.ledger.accounts =
        getAccount id store.db.ledger.accounts) ∧
    (minInt64 < arg.Amount → arg.Amount ≤ maxInt64 →
      totalBalance (store.TransferTx arg).2.db.ledger = totalBalance store.db.ledger) := by
  rcases TransferTx_cases store arg with ⟨e0, -, hl, -⟩ | ⟨k, c1, e1, r, -, -, hl, -⟩ |
    ⟨w, ce, hp, -, hl, -⟩
  · rw [hl]; exact ⟨rfl, fun _ _ _ => rfl, fun _ _ => rfl⟩
  · rw [hl]; exact ⟨rfl, fun _ _ _ => rfl, fun _ _ => rfl⟩
  · cases ce with
    | some e => rw [hl]; exact ⟨rfl, fun _ _ _ => rfl, fun _ _ => rfl⟩
    | none =>
      simp only [if_true] at hl
      obtain ⟨x, y, hx, hy, hw, -⟩ := hp.explicit
      rw [hl, hw]
      refine ⟨?_, ?_, ?_⟩
      · simp only [map_ID_addBalance]
      · intro id h1 h2
        have hf : id ≠ (firstUpdate arg).ID := by
          unfold firstUpdate; split <;> assumption
        have hs : id ≠ (secondUpdate arg).ID := by
          unfold secondUpdate; split <;> assumption
        simp only [getAccount_addBalance_ne _ _ hs, getAccount_addBalance_ne _ _ hf]
      · intro hmin hmax
        have hneg := neg64_eq_neg hmin hmax
        unfold totalBalance
        simp only [sum_addBalance _ hy, sum_addBalance _ hx]
        have hsum : (firstUpdate arg).Amount + (secondUpdate arg).Amount = 0 := by
          unfold firstUpdate secondUpdate
          split <;> simp [hneg]
        omega

/-- C9: after any finite sequence of `TransferTx` calls executed one after another, each
committing or rolling back, with amounts whose negation does not overflow, the sum of the
balances of all accounts is the sum before the sequence; the set of accounts is the same, and
every account that no transfer of the sequence names keeps its row. -/
theorem C9_total_balance_conserved (store : Store) (args : List TransferTxParams)
    (hno : ∀ arg ∈ args, minInt64 < arg.Amount ∧ arg.Amount ≤ maxInt64) :
    totalBalance (runTransfers store args).db.ledger = totalBalance store.db.ledger ∧
    (runTransfers store args).db.ledger.accounts.map (fun a => a.ID) =
      store.db.ledger.accounts.map (fun a => a.ID) ∧
    (∀ id, (∀ arg ∈ args, id ≠ arg.FromAccountID ∧ id ≠ arg.ToAccountID) →
      getAccount id (runTransfers store args).db.ledger.accounts =
        getAccount id store.db.ledger.accounts) := by
  induction args generalizing store with
  | nil => exact ⟨rfl, rfl, fun _ _ => rfl⟩
  | cons arg rest ih =>
    obtain ⟨hids, hoth, htot⟩ := TransferTx_step store arg
    have harg := hno arg (List.mem_cons_self _ _)
    obtain ⟨ih1, ih2, ih3⟩ := ih (store.TransferTx arg).2
      (fun a ha => hno a (List.mem_cons_of_mem _ ha))
    unfold runTransfers
    refine ⟨by rw [ih1, htot harg.1 harg.2], by rw [ih2, hids], ?_⟩
    intro id hid
    rw [ih3 id (fun a ha => hid a (List.mem_cons_of_mem _ ha))]
    exact hoth id (hid arg (List.mem_cons_self _ _)).1 (hid arg (List.mem_cons_self _ _)).2

/-- C9 at a concrete sequence: a transfer that commits, a transfer that overdraws and a
transfer that is rolled back keep the total at 150. -/
theorem C9_total_balance_conserved_witness :
    (∀ arg ∈ [(⟨1, 2, 30⟩ : TransferTxParams), ⟨2, 1, 200⟩, ⟨1, 7, 5⟩],
      minInt64 < arg.Amount ∧ arg.Amount ≤ maxInt64) ∧
    totalBalance (runTransfers exampleStore [⟨1, 2, 30⟩, ⟨2, 1, 200⟩, ⟨1, 7, 5⟩]).db.ledger = 150 ∧
    totalBalance (runTransfers exampleStore [⟨1, 2, 30⟩, ⟨2, 1, 200⟩, ⟨1, 7, 5⟩]).db.ledger =
      totalBalance exampleStore.db.ledger :=
  ⟨by decide, by decide,
   (C9_total_balance_conserved exampleStore [⟨1, 2, 30⟩, ⟨2, 1, 200⟩, ⟨1, 7, 5⟩] (by decide)).1⟩

/-- C10, refutation: the self-transfer of amount 0 on account A succeeds and returns
`FromAccount.Balance` equal to the balance before minus the amount. -/
theorem C10_counterexample :
    getAccount 1 exampleStore.db.ledger.accounts = some accountA ∧
    (exampleStore.TransferTx ⟨1, 1, 0⟩).1.2 = none ∧
    ¬ ((exampleStore.TransferTx ⟨1, 1, 0⟩).1.1.FromAccount.Balance ≠ accountA.Balance - 0) := by
  decide

/-- C10, amended: a successful self-transfer on an existing account with balance `b` issues
the credit first and the debit second, leaves the committed row of the account as it was, and
returns `ToAccount.Balance = b + a` and `FromAccount.Balance = b`, which differs from `b - a`
whenever the amount is not zero. -/
theorem C10_self_transfer (store : Store) (k a : Int) (acct : Account)
    (hk : getAccount k store.db.ledger.accounts = some acct)
    (hmin : minInt64 < a) (hmax : a ≤ maxInt64)
    (hok : (store.TransferTx ⟨k, k, a⟩).1.2 = none) :
    balanceUpdates (issued store ⟨k, k, a⟩) =
      [{ call := .UpdateAccountBalance ⟨k, a⟩, err := none },
       { call := .UpdateAccountBalance ⟨k, -a⟩, err := none }] ∧
    getAccount k (store.TransferTx ⟨k, k, a⟩).2.db.ledger.accounts = some acct ∧
    (store.TransferTx ⟨k, k, a⟩).1.1.ToAccount.Balance = acct.Balance + a ∧
    (store.TransferTx ⟨k, k, a⟩).1.1.FromAccount.Balance = acct.Balance ∧
    (a ≠ 0 → (store.TransferTx ⟨k, k, a⟩).1.1.FromAccount.Balance ≠ acct.Balance - a) := by
  have hneg := neg64_eq_neg hmin hmax
  rcases TransferTx_cases store ⟨k, k, a⟩ with ⟨e, h, -⟩ | ⟨n, c, e, r, -, h, -⟩ | ⟨w, ce, hc⟩
  · rw [h] at hok; cases hok
  · rw [h] at hok; cases hok
  · have hup := balanceUpdates_of_commit hc
    obtain ⟨hp, hce, hl, -⟩ := hc
    rw [hok] at hce; subst hce
    simp only [if_true] at hl
    obtain ⟨x, y, hx, hy, hw, hres⟩ := hp.explicit
    simp only [firstUpdate, secondUpdate, lt_irrefl, if_false, hneg] at hx hy hw hres hup
    rw [hk] at hx; cases hx
    rw [getAccount_addBalance_same _ hk] at hy; cases hy
    rw [hup, hl, hres, hw]
    refine ⟨rfl, ?_, rfl, ?_, ?_⟩
    · rw [getAccount_addBalance_same a hk |> getAccount_addBalance_same (-a)]
      simp
    · simp
    · intro ha
      simp
      omega

/-- C10, amended, at a concrete run: the self-transfer of 30 on account A (balance 100)
returns `ToAccount.Balance = 130` and `FromAccount.Balance = 100`, not 70. -/
theorem C10_self_transfer_witness :
    getAccount 1 exampleStore.db.ledger.accounts = some accountA ∧
    (exampleStore.TransferTx ⟨1, 1, 30⟩).1.2 = none ∧
    balanceUpdates (issued exampleStore ⟨1, 1, 30⟩) =
      [{ call := .UpdateAccountBalance ⟨1, 30⟩, err := none },
       { call := .UpdateAccountBalance ⟨1, -30⟩, err := none }] ∧
    getAccount 1 (exampleStore.TransferTx ⟨1, 1, 30⟩).2.db.ledger.accounts = some accountA ∧
    (exampleStore.TransferTx ⟨1, 1, 30⟩).1.1.ToAccount.Balance = accountA.Balance + 30 ∧
    (exampleStore.TransferTx ⟨1, 1, 30⟩).1.1.FromAccount.Balance = accountA.Balance ∧
    ((30 : Int) ≠ 0 →
      (exampleStore.TransferTx ⟨1, 1, 30⟩).1.1.FromAccount.Balance ≠ accountA.Balance - 30) :=
  ⟨by decide, by decide,
   C10_self_transfer exampleStore 1 30 accountA (by decide) (by decide) (by decide) (by decide)⟩

end SimpleBank
